import Mathlib

/-!
Verification development for the productforge PDF engine.

The definitions below are a shallow embedding of the Python sources under
src/productforge: the data model (models.py), the drawing context
(context.py), the chapter pagination loop (renderers/chapter.py) and the
build orchestrator (builder.py).  Machine reals (Python floats) are
embedded as rationals; drawing side effects are embedded as an explicit
event trace; the ReportLab text-wrapping collaborator simpleSplit, which
is not part of this repository, is either kept abstract (a function
parameter) or modelled from the specification where a claim depends on
its behaviour.
-/

namespace ProductForge

/-- Drawing events emitted by the embedded renderers.  Every event records
the page counter value at the moment it is emitted (the line event records
the page the line is drawn on). -/
inductive Ev where
  | pageNumText (n : Nat) (style : String)
  | endPage (pg : Nat)
  | beginPage (bg : String) (pg : Nat)
  | chrome (name : String) (pg : Nat)
  | line (para : Nat) (s : String) (y : ℚ) (pg : Nat)
  | titleLine (s : String) (y : ℚ) (pg : Nat)
  | decor (name : String) (y : ℚ) (pg : Nat)
  deriving DecidableEq, Repr

/-- Stamp used to order events by page: an event on page p gets stamp 2p,
and the finalization of page p (endPage) gets stamp 2p+1, strictly between
page p content and page p+1 content. -/
def Ev.stamp : Ev → Nat
  | .pageNumText n _ => 2 * n
  | .endPage pg => 2 * pg + 1
  | .beginPage _ pg => 2 * pg
  | .chrome _ pg => 2 * pg
  | .line _ _ _ pg => 2 * pg
  | .titleLine _ _ pg => 2 * pg
  | .decor _ _ pg => 2 * pg

/-- Paragraph index of a line event, if any. -/
def Ev.paraIdx : Ev → Option Nat
  | .line i _ _ _ => some i
  | _ => none

/-- From context.py, RenderContext.draw_page_number: draws the current page
number at the bottom of the page, but only when the page counter has
reached 2; on earlier pages it returns without drawing. -/
def draw_page_number (page_num : Nat) (style : String) : List Ev :=
  if page_num < 2 then [] else [.pageNumText page_num style]

/-- From context.py, the drawing loop of RenderContext.draw_text_wrapped:
draws each pre-wrapped line at the cursor, decrementing the cursor by the
line height after each line; returns the cursor after the last line
together with the emitted events.  i is the paragraph index and pg the
current page counter (recorded on each line event). -/
def draw_wrapped_lines (i pg : Nat) (lh : ℚ) : List String → ℚ → ℚ × List Ev
  | [], y => (y, [])
  | s :: rest, y =>
      let r := draw_wrapped_lines i pg lh rest (y - lh)
      (r.1, .line i s y pg :: r.2)

-- ---------------------------------------------------------------------------
-- Design system and page geometry (models.py and context.py)
-- ---------------------------------------------------------------------------

/-- From models.py: DesignSystem dataclass. -/
structure DesignSystem where
  colors : List (String × String) := []
  fonts : List (String × String) := []
  page_size : String := "letter"
  margins : List (String × ℚ) :=
    [("left", 90), ("right", 90), ("top", 80), ("bottom", 60)]
  layout : String := "editorial"
  deriving DecidableEq, Repr

/-- Default margins dictionary of models.py. -/
def defaultMargins : List (String × ℚ) :=
  [("left", 90), ("right", 90), ("top", 80), ("bottom", 60)]

/-- From context.py: PAGE_SIZES lookup with letter as the fallback;
letter is 612 x 792 points, A4 is 210mm x 297mm in points. -/
def page_size_of (s : String) : ℚ × ℚ :=
  if s = "letter" then (612, 792)
  else if s = "a4" then (75600 / 127, 106920 / 127)
  else (612, 792)

/-- Dictionary get with default, as used by dict.get in context.py. -/
def dget (l : List (String × ℚ)) (k : String) (d : ℚ) : ℚ :=
  (l.lookup k).getD d

/-- RenderContext.__init__: page width. -/
def ctx_W (d : DesignSystem) : ℚ := (page_size_of d.page_size).1

/-- RenderContext.__init__: page height. -/
def ctx_H (d : DesignSystem) : ℚ := (page_size_of d.page_size).2

/-- RenderContext.__init__: margin lookups with their defaults. -/
def margin_left (d : DesignSystem) : ℚ := dget d.margins "left" 90

/-- RenderContext.__init__: right margin. -/
def margin_right (d : DesignSystem) : ℚ := dget d.margins "right" 90

/-- RenderContext.__init__: top margin. -/
def margin_top (d : DesignSystem) : ℚ := dget d.margins "top" 80

/-- RenderContext.__init__: bottom margin. -/
def margin_bottom (d : DesignSystem) : ℚ := dget d.margins "bottom" 60

/-- RenderContext.__init__: text area width derived from the margins. -/
def text_area_w (d : DesignSystem) : ℚ :=
  ctx_W d - margin_left d - margin_right d

/-- RenderContext.font: font lookup by role with Helvetica default. -/
def font_of (d : DesignSystem) (role : String) : String :=
  (d.fonts.lookup role).getD "Helvetica"

/-- Margin invariant stated by the specification: each margin is
non-negative and strictly smaller than half the corresponding page
dimension. -/
def margins_ok (d : DesignSystem) : Prop :=
  0 ≤ margin_left d ∧ margin_left d < ctx_W d / 2 ∧
  0 ≤ margin_right d ∧ margin_right d < ctx_W d / 2 ∧
  0 ≤ margin_top d ∧ margin_top d < ctx_H d / 2 ∧
  0 ≤ margin_bottom d ∧ margin_bottom d < ctx_H d / 2

instance (d : DesignSystem) : Decidable (margins_ok d) := by
  unfold margins_ok; infer_instance

-- ---------------------------------------------------------------------------
-- Chapter pagination loop (renderers/chapter.py)
-- ---------------------------------------------------------------------------

/-- Per-variant parameters of the chapter body loop: the wrapped-line
function for body text (simpleSplit at the variant's body font, size and
max width, kept abstract), the body font size, line-height factor, the
blank-line gap, inter-paragraph gap, bottom limit, the y the cursor is
reset to after a page break, the page-number style, the background name
passed to start_page, and the names of the chrome elements redrawn on
continuation pages. -/
structure ChapterParams where
  split : String → List String
  size : ℚ
  lhf : ℚ
  blankGap : ℚ
  paraGap : ℚ
  bottomLimit : ℚ
  topY : ℚ
  numStyle : String
  bg : String
  chromeNames : List String

/-- From chapter.py, function text height: the height a wrapped text
block will consume, the wrapped line count times size times line-height
factor. -/
def text_height (P : ChapterParams) (para : String) : ℚ :=
  ((P.split para).length : ℚ) * P.size * P.lhf

/-- The event sequence of a page break in the chapter body loop: trailing
page-number decoration, finalize the page, start a fresh page with the
variant's background, redraw the variant's chrome. -/
def page_break_evs (P : ChapterParams) (pn : Nat) : List Ev :=
  draw_page_number pn P.numStyle ++
    .endPage pn :: .beginPage P.bg (pn + 1) ::
      P.chromeNames.map (fun nm => Ev.chrome nm (pn + 1))

/-- From chapter.py, the body of the paragraph loop (identical in the
editorial, clean and warm variants up to the parameters in P): a blank
sentinel only decrements the cursor by the blank gap; otherwise the
needed height is measured, a page break is performed when the cursor
minus the needed height falls below the bottom limit, and the wrapped
lines are then drawn followed by the inter-paragraph gap.  Returns the
new cursor, the new page counter, and the emitted events. -/
def place_paragraph (P : ChapterParams) (i : Nat) (para : String)
    (y : ℚ) (pn : Nat) : ℚ × Nat × List Ev :=
  if para = "" then (y - P.blankGap, pn, [])
  else
    if y - text_height P para < P.bottomLimit then
      let dl := draw_wrapped_lines i (pn + 1) (P.size * P.lhf) (P.split para) P.topY
      (dl.1 - P.paraGap, pn + 1, page_break_evs P pn ++ dl.2)
    else
      let dl := draw_wrapped_lines i pn (P.size * P.lhf) (P.split para) y
      (dl.1 - P.paraGap, pn, dl.2)

/-- From chapter.py: the paragraph loop, processing the paragraph list in
order in a single pass, threading the cursor and the page counter. -/
def chapter_body_loop (P : ChapterParams) :
    List String → Nat → ℚ → Nat → ℚ × Nat × List Ev
  | [], _, y, pn => (y, pn, [])
  | para :: rest, i, y, pn =>
      let r := place_paragraph P i para y pn
      let rr := chapter_body_loop P rest (i + 1) r.1 r.2.1
      (rr.1, rr.2.1, r.2.2 ++ rr.2.2)

-- ---------------------------------------------------------------------------
-- Auto-fitted title (context.py, RenderContext.draw_title_fitted)
-- ---------------------------------------------------------------------------

/-- From context.py, the size-search loop of draw_title_fitted: while the
size is above the minimum and the wrapped line count at the current size
exceeds 3, decrease the size by one; if the loop runs out, settle on the
minimum size.  The fuel argument bounds the number of decrements; the
caller supplies enough fuel for the loop to reach the minimum. -/
def fit_title_go (count : ℚ → Nat) (minS : ℚ) : Nat → ℚ → ℚ
  | 0, _ => minS
  | f + 1, size =>
      if minS < size then
        (if count size ≤ 3 then size else fit_title_go count minS f (size - 1))
      else minS

/-- From context.py: the font size selected by draw_title_fitted, starting
at the maximum size and decreasing in unit steps. -/
def fit_title_size (count : ℚ → Nat) (maxS minS : ℚ) : ℚ :=
  fit_title_go count minS ⌈maxS - minS⌉.toNat maxS

/-- From context.py, the drawing loop of draw_title_fitted: one title line
per wrapped line, the cursor decreasing by size times line-height factor. -/
def title_lines_go (lh : ℚ) (pg : Nat) : List String → ℚ → ℚ × List Ev
  | [], y => (y, [])
  | s :: rest, y =>
      let r := title_lines_go lh pg rest (y - lh)
      (r.1, .titleLine s y pg :: r.2)

/-- From context.py, RenderContext.draw_title_fitted: selects the font
size with the search loop, then draws every wrapped line of the text at
that size.  The wrapped lines at a given size are supplied by the
abstracted simpleSplit collaborator through linesAt. -/
def draw_title_fitted (linesAt : ℚ → List String) (maxS minS : ℚ)
    (y lhf : ℚ) (pg : Nat) : ℚ × List Ev :=
  let size := fit_title_size (fun q => (linesAt q).length) maxS minS
  title_lines_go (size * lhf) pg (linesAt size) y

-- ---------------------------------------------------------------------------
-- Chapter renderers (renderers/chapter.py)
-- ---------------------------------------------------------------------------

/-- Chapter page data (chapter.py render docstring): chapter number,
chapter title, and the body paragraphs, each defaulting to empty as with
dict.get. -/
structure ChapterData where
  chapter_number : String := ""
  chapter_title : String := ""
  paragraphs : List String := []

/-- Abstract simpleSplit collaborator: text, font, size, max width to the
wrapped lines. -/
abbrev SplitFun := String → String → ℚ → ℚ → List String

/-- Loop parameters of the editorial chapter variant (chapter.py): body
font at size 11, max width 60 less than the text area, paragraph gap 4,
blank gap 14, bottom limit 30 above the bottom margin, default 1.65
line-height factor, cursor reset to H minus top margin minus 40, default
right page-number style, background fill, no extra chrome. -/
def editorial_params (sp : SplitFun) (d : DesignSystem) : ChapterParams :=
  { split := fun s => sp s (font_of d "body") 11 (text_area_w d - 60)
    size := 11, lhf := 1.65, blankGap := 14, paraGap := 4
    bottomLimit := margin_bottom d + 30
    topY := ctx_H d - margin_top d - 40
    numStyle := "right", bg := "background", chromeNames := [] }

/-- First-page content start of the editorial variant (chapter.py). -/
def editorial_start_y (d : DesignSystem) : ℚ := ctx_H d - margin_top d - 40

/-- Loop parameters of the clean chapter variant (chapter.py): body font
at size 11 across the full text area, paragraph gap 6, blank gap 12,
bottom limit 30 above the bottom margin, 1.85 line-height factor, cursor
reset to H minus 0.8 inch, centered page numbers, background fill plus
header bar and sidebar chrome. -/
def clean_params (sp : SplitFun) (d : DesignSystem) : ChapterParams :=
  { split := fun s => sp s (font_of d "body") 11 (text_area_w d)
    size := 11, lhf := 1.85, blankGap := 12, paraGap := 6
    bottomLimit := margin_bottom d + 30
    topY := ctx_H d - 288 / 5
    numStyle := "center", bg := "background"
    chromeNames := ["header_bar", "sidebar"] }

/-- First-page content start of the clean variant (0.8 inch below the top
edge, chapter.py). -/
def clean_start_y (d : DesignSystem) : ℚ := ctx_H d - 288 / 5

/-- Loop parameters of the warm chapter variant (chapter.py): body font
at size 11 across the full text area, paragraph gap 6, blank gap 12,
bottom limit 40 above the bottom margin, 1.85 line-height factor, cursor
reset to H minus 80 on continuation pages, centered page numbers, primary
background plus accent line and sidebar chrome. -/
def warm_params (sp : SplitFun) (d : DesignSystem) : ChapterParams :=
  { split := fun s => sp s (font_of d "body") 11 (text_area_w d)
    size := 11, lhf := 1.85, blankGap := 12, paraGap := 6
    bottomLimit := margin_bottom d + 40
    topY := ctx_H d - 80
    numStyle := "center", bg := "primary"
    chromeNames := ["accent_line", "sidebar"] }

/-- First-page content start of the warm variant (chapter.py sets y to H
minus 90 before the heading block). -/
def warm_start_y (d : DesignSystem) : ℚ := ctx_H d - 90

/-- From chapter.py, the render editorial routine: start a page with the
background fill, draw the optional chapter number and auto-fitted title,
run the paragraph loop, then draw the trailing page number and finalize
the page. -/
def render_editorial (sp : SplitFun) (d : DesignSystem) (data : ChapterData)
    (pn0 : Nat) : ℚ × Nat × List Ev :=
  let pn := pn0 + 1
  let maxW := text_area_w d - 60
  let y0 := editorial_start_y d
  let hn :=
    if data.chapter_number = "" then (y0, ([] : List Ev))
    else (y0 - 30, [.decor "chapter_number" y0 pn])
  let ht :=
    if data.chapter_title = "" then (hn.1, ([] : List Ev))
    else
      let r := draw_title_fitted
        (fun q => sp data.chapter_title (font_of d "heading") q maxW)
        20 14 hn.1 1.4 pn
      (r.1 - 20, r.2 ++ [.decor "accent_line" (r.1 - 4) pn])
  let lp := chapter_body_loop (editorial_params sp d) data.paragraphs 0 ht.1 pn
  (lp.1, lp.2.1,
    .beginPage "background" pn :: hn.2 ++ ht.2 ++ lp.2.2 ++
      draw_page_number lp.2.1 "right" ++ [.endPage lp.2.1])

/-- From chapter.py, the render clean routine: start a page with the
background fill, header bar and sidebar, draw the optional number badge
and auto-fitted title, run the paragraph loop, then draw the trailing
centered page number and finalize the page. -/
def render_clean (sp : SplitFun) (d : DesignSystem) (data : ChapterData)
    (pn0 : Nat) : ℚ × Nat × List Ev :=
  let pn := pn0 + 1
  let maxW := text_area_w d
  let y0 := clean_start_y d
  let hn :=
    if data.chapter_number = "" then (y0, ([] : List Ev))
    else (y0 - 36, [.decor "number_circle" y0 pn])
  let ht :=
    if data.chapter_title = "" then (hn.1, ([] : List Ev))
    else
      let r := draw_title_fitted
        (fun q => sp data.chapter_title "Helvetica-Bold" q maxW)
        20 14 hn.1 1.3 pn
      (r.1 - 20, r.2 ++ [.decor "accent_line" (r.1 - 4) pn])
  let lp := chapter_body_loop (clean_params sp d) data.paragraphs 0 ht.1 pn
  (lp.1, lp.2.1,
    .beginPage "background" pn :: .chrome "header_bar" pn ::
      .chrome "sidebar" pn :: hn.2 ++ ht.2 ++ lp.2.2 ++
      draw_page_number lp.2.1 "center" ++ [.endPage lp.2.1])

/-- From chapter.py, the render warm routine: start a page with the
primary fill, accent line and sidebar, draw the optional chapter number
label and auto-fitted title, run the paragraph loop, draw the optional
author footer, then the trailing centered page number and finalize. -/
def render_warm (sp : SplitFun) (d : DesignSystem) (author : String)
    (data : ChapterData) (pn0 : Nat) : ℚ × Nat × List Ev :=
  let pn := pn0 + 1
  let maxW := text_area_w d
  let y0 := warm_start_y d
  let hn :=
    if data.chapter_number = "" then (y0, ([] : List Ev))
    else (y0 - 30, [.decor "chapter_number" y0 pn])
  let ht :=
    if data.chapter_title = "" then (hn.1, ([] : List Ev))
    else
      let r := draw_title_fitted
        (fun q => sp data.chapter_title "Helvetica-Bold" q maxW)
        20 14 hn.1 1.3 pn
      (r.1 - 24, r.2 ++ [.decor "accent_dash" (r.1 - 4) pn])
  let lp := chapter_body_loop (warm_params sp d) data.paragraphs 0 ht.1 pn
  let foot :=
    if author = "" then ([] : List Ev) else [.decor "author_footer" 36 lp.2.1]
  (lp.1, lp.2.1,
    .beginPage "primary" pn :: .chrome "accent_line" pn ::
      .chrome "sidebar" pn :: hn.2 ++ ht.2 ++ lp.2.2 ++ foot ++
      draw_page_number lp.2.1 "center" ++ [.endPage lp.2.1])

/-- From chapter.py, render: dispatch on the design layout, editorial and
warm by name, anything else to the clean variant. -/
def chapter_render (sp : SplitFun) (d : DesignSystem) (author : String)
    (data : ChapterData) (pn0 : Nat) : ℚ × Nat × List Ev :=
  if d.layout = "editorial" then render_editorial sp d data pn0
  else if d.layout = "warm" then render_warm sp d author data pn0
  else render_clean sp d data pn0

-- ---------------------------------------------------------------------------
-- Layout-variant dispatch of the single-page renderers
-- ---------------------------------------------------------------------------

/-- The three layout-variant sub-routines a dispatching renderer can
select. -/
inductive Variant where
  | editorial
  | clean
  | warm
  deriving DecidableEq, Repr

/-- From renderers/cover.py, render: layout dispatch. -/
def cover_pick_variant (layout : String) : Variant :=
  if layout = "editorial" then .editorial
  else if layout = "warm" then .warm else .clean

/-- From renderers/letter.py, render: layout dispatch. -/
def letter_pick_variant (layout : String) : Variant :=
  if layout = "editorial" then .editorial
  else if layout = "warm" then .warm else .clean

/-- From renderers/prompt.py, render: layout dispatch. -/
def prompt_pick_variant (layout : String) : Variant :=
  if layout = "editorial" then .editorial
  else if layout = "warm" then .warm else .clean

/-- From renderers/writing.py, render: layout dispatch. -/
def writing_pick_variant (layout : String) : Variant :=
  if layout = "editorial" then .editorial
  else if layout = "warm" then .warm else .clean

/-- From renderers/cta.py, render: layout dispatch. -/
def cta_pick_variant (layout : String) : Variant :=
  if layout = "editorial" then .editorial
  else if layout = "warm" then .warm else .clean

/-- From renderers/chapter.py, render: layout dispatch. -/
def chapter_pick_variant (layout : String) : Variant :=
  if layout = "editorial" then .editorial
  else if layout = "warm" then .warm else .clean

/-- From renderers/toc.py, render: there is no per-variant sub-routine;
the single routine draws the clean header bar exactly when the layout is
the string clean, and is otherwise identical for all layouts. -/
def toc_draws_header_bar (layout : String) : Bool := layout = "clean"

/-- From renderers/section.py, render: the single routine never reads the
layout, so its behaviour is this constant function of the layout. -/
def section_layout_behavior (_layout : String) : Unit := ()

-- ---------------------------------------------------------------------------
-- Data model (models.py) and the build orchestrator (builder.py)
-- ---------------------------------------------------------------------------

/-- From models.py: LinkSpec dataclass. -/
structure LinkSpec where
  url : String
  display : String
  deriving DecidableEq, Repr

/-- From models.py: PageSpec dataclass; the per-type payload is an opaque
string-keyed mapping, irrelevant to dispatch. -/
structure PageSpec where
  type : String
  data : List (String × String) := []
  deriving DecidableEq, Repr

/-- From models.py: ProductConfig dataclass. -/
structure ProductConfig where
  title : String
  subtitle : String := ""
  author : String := ""
  filename : String := "output.pdf"
  design : DesignSystem := {}
  links : List (String × LinkSpec) := []
  pages : List PageSpec := []
  deriving DecidableEq, Repr

/-- Input dictionary shape for the design sub-dictionary of from_dict:
each field is present or absent, as in a parsed JSON object. -/
structure RawDesign where
  colors : Option (List (String × String)) := none
  fonts : Option (List (String × String)) := none
  page_size : Option String := none
  margins : Option (List (String × ℚ)) := none
  layout : Option String := none

/-- Input dictionary shape for one link entry; url and display are
required keys in from_dict (a missing one raises KeyError). -/
structure RawLink where
  url : Option String := none
  display : Option String := none

/-- Input dictionary shape for one page entry; the type key is required
in from_dict (a missing one raises KeyError). -/
structure RawPage where
  type : Option String := none
  data : Option (List (String × String)) := none

/-- Input dictionary shape for from_dict. -/
structure RawConfig where
  title : Option String := none
  subtitle : Option String := none
  author : Option String := none
  filename : Option String := none
  design : Option RawDesign := none
  links : Option (List (String × RawLink)) := none
  pages : Option (List RawPage) := none

/-- From models.py, ProductConfig.from_dict: build a ProductConfig from a
plain dictionary, with dict.get defaults throughout; a required key that
is missing raises, modelled as an error result. -/
def ProductConfig.from_dict (data : RawConfig) : Except String ProductConfig := do
  let dd := data.design.getD {}
  let design : DesignSystem :=
    { colors := dd.colors.getD []
      fonts := dd.fonts.getD []
      page_size := dd.page_size.getD "letter"
      margins := dd.margins.getD defaultMargins
      layout := dd.layout.getD "editorial" }
  let links ← (data.links.getD []).mapM fun nl => do
    match nl.2.url, nl.2.display with
    | some u, some disp => pure (nl.1, LinkSpec.mk u disp)
    | none, _ => throw "KeyError: url"
    | _, none => throw "KeyError: display"
  let pages ← (data.pages.getD []).mapM fun pd => do
    match pd.type with
    | some t => pure (PageSpec.mk t (pd.data.getD []))
    | none => throw "KeyError: type"
  pure
    { title := data.title.getD "Untitled"
      subtitle := data.subtitle.getD ""
      author := data.author.getD ""
      filename := data.filename.getD "output.pdf"
      design := design
      links := links
      pages := pages }

/-- From builder.py: the keys of the RENDERERS registry. -/
def RENDERER_KEYS : List String :=
  ["cover", "letter", "prompt", "writing", "cta", "toc", "section", "chapter"]

/-- The error message raised by PDFBuilder.build for an unregistered page
type (Python repr of the type puts it in quotes). -/
def unknown_page_type_msg (t : String) : String :=
  "Unknown page type: '" ++ t ++ "'"

/-- From builder.py, the page loop of PDFBuilder.build: look up each page
type in the registry in order, raising on the first unknown type, and
record the renderer invocation for each registered page. -/
def build_pages : List PageSpec → Except String (List String)
  | [] => .ok []
  | p :: rest =>
      if p.type ∈ RENDERER_KEYS then
        match build_pages rest with
        | .ok out => .ok (p.type :: out)
        | .error e => .error e
      else .error (unknown_page_type_msg p.type)

/-- From builder.py, PDFBuilder.build: render every page in order; the
byte stream handed back to the caller is abstracted as the sequence of
renderer invocations, produced only when the whole page list succeeds
(the Python function returns the buffer contents only after the loop, so
an error propagates before any bytes are returned). -/
def build (config : ProductConfig) : Except String (List String) :=
  build_pages config.pages

-- ---------------------------------------------------------------------------
-- Text metrics (the simpleSplit collaborator), modelled from the spec
-- ---------------------------------------------------------------------------

/-- Modelled from the spec: the Text Metrics measure routine (the
ReportLab simpleSplit collaborator is outside this repository).  Greedy
word-boundary wrapping: words carry a nonnegative rendered width given by
wid, consecutive words on a line are separated by a space of width sp,
the current line is extended while its width stays within the maximum,
and a word that does not fit starts a new line (an oversized word
occupies its own overflowing line).  The state is the number of lines so
far including the open one, and the width of the open line. -/
def wrap_go (wid : α → ℚ) (sp maxW : ℚ) : List α → Nat → ℚ → Nat
  | [], n, _ => n
  | w :: ws, n, cur =>
      if cur + sp + wid w ≤ maxW then wrap_go wid sp maxW ws n (cur + sp + wid w)
      else wrap_go wid sp maxW ws (n + 1) (wid w)

/-- Modelled from the spec: the wrapped line count of the Text Metrics
measure routine; empty input yields no lines, otherwise the first word
opens the first line. -/
def line_count (wid : α → ℚ) (sp maxW : ℚ) : List α → Nat
  | [] => 0
  | w :: ws => wrap_go wid sp maxW ws 1 (wid w)

/-- From chapter.py, function text height applied to a measured line
count: count times size times line-height factor. -/
def text_height_of (n : Nat) (size lhf : ℚ) : ℚ := (n : ℚ) * size * lhf

-- ---------------------------------------------------------------------------
-- Trace observables
-- ---------------------------------------------------------------------------

/-- Strings of the line events of paragraph j, in trace order. -/
def para_line_strs (j : Nat) (evs : List Ev) : List String :=
  evs.filterMap fun e => match e with
    | .line i s _ _ => if i = j then some s else none
    | _ => none

/-- Cursor positions of the line events of paragraph j, in trace order. -/
def para_line_ys (j : Nat) (evs : List Ev) : List ℚ :=
  evs.filterMap fun e => match e with
    | .line i _ y _ => if i = j then some y else none
    | _ => none

/-- Cursor position of the first drawn line of paragraph j, if any. -/
def first_line_y (j : Nat) (evs : List Ev) : Option ℚ :=
  (para_line_ys j evs).head?

/-- Paragraph indices of the line events of a trace, in trace order. -/
def line_indices (evs : List Ev) : List Nat := evs.filterMap Ev.paraIdx

/-- Strings of the title line events of a trace, in trace order. -/
def title_line_strs (evs : List Ev) : List String :=
  evs.filterMap fun e => match e with
    | .titleLine s _ _ => some s
    | _ => none

/-- The page stamps of a trace are nondecreasing: content of earlier
pages, and earlier page finalizations, come earlier. -/
def StampMono (evs : List Ev) : Prop :=
  evs.Pairwise (fun a b => a.stamp ≤ b.stamp)

-- ---------------------------------------------------------------------------
-- Concrete fixtures for witnesses and counterexamples
-- ---------------------------------------------------------------------------

/-- A concrete stand-in for the simpleSplit collaborator: every text fits
on a single line. -/
def split_whole : SplitFun := fun text _ _ _ => [text]

/-- A concrete stand-in for the simpleSplit collaborator under which the
text BIG wraps to 40 lines and everything else fits on one line. -/
def split_tall : SplitFun := fun text _ _ _ =>
  if text = "BIG" then List.replicate 40 "x" else [text]

/-- Editorial chapter-loop parameters over the default design and the
single-line split fixture. -/
def P_ed : ChapterParams := editorial_params split_whole {}

/-- A config whose page list contains an unregistered page type. -/
def cfg_bad : ProductConfig := { title := "Test", pages := [{ type := "nonexistent" }] }

/-- A config whose single page has a registered type. -/
def cfg_ok : ProductConfig := { title := "Test", pages := [{ type := "cover" }] }

/-- An input dictionary whose margins violate the margin invariant on a
letter-size page. -/
def raw_bad_margins : RawConfig :=
  { design := some { margins := some [("left", 400), ("right", 400)] }
    pages := some [] }

/-- A concrete wrapped-lines function of the font size: four lines at
sizes of 18 and above, one line below. -/
def linesAt_fix : ℚ → List String :=
  fun q => if 18 ≤ q then ["a", "b", "c", "d"] else ["t"]

/-- A design whose bottom margin is large enough that the second
paragraph of a short warm chapter overflows the first page. -/
def d6 : DesignSystem := { margins := [("bottom", 630)] }

/-- A concrete warm chapter run with no heading content and two one-line
paragraphs, the second of which triggers a page break. -/
def warm_run : ℚ × Nat × List Ev :=
  render_warm split_whole d6 "" { paragraphs := ["Hello", "B"] } 0

/-- The ProductConfig that from_dict produces for the bad-margins input. -/
def cfg_bad_margins : ProductConfig :=
  { title := "Untitled"
    design :=
      { colors := [], fonts := [], page_size := "letter"
        margins := [("left", 400), ("right", 400)], layout := "editorial" }
    pages := [] }

-- ---------------------------------------------------------------------------
-- Lemmas about the drawing loop
-- ---------------------------------------------------------------------------

theorem mem_draw_wrapped_lines {i pg : Nat} {lh : ℚ} :
    ∀ (lines : List String) (y : ℚ) (e : Ev),
      e ∈ (draw_wrapped_lines i pg lh lines y).2 →
      ∃ s y0, s ∈ lines ∧ e = Ev.line i s y0 pg := by
  intro lines
  induction lines with
  | nil => intro y e h; simp [draw_wrapped_lines] at h
  | cons s rest ih =>
      intro y e h
      simp only [draw_wrapped_lines, List.mem_cons] at h
      rcases h with h | h
      · exact ⟨s, y, by simp, h⟩
      · obtain ⟨s', y0, hs', he⟩ := ih (y - lh) e h
        exact ⟨s', y0, by simp [hs'], he⟩

theorem para_line_strs_draw_wrapped_lines {i pg : Nat} {lh : ℚ} :
    ∀ (lines : List String) (y : ℚ),
      para_line_strs i (draw_wrapped_lines i pg lh lines y).2 = lines := by
  intro lines
  induction lines with
  | nil => intro y; simp [draw_wrapped_lines, para_line_strs]
  | cons s rest ih =>
      intro y
      simp [draw_wrapped_lines, para_line_strs] at ih ⊢
      exact ih (y - lh)

theorem para_line_strs_draw_wrapped_lines_ne {i j pg : Nat} {lh : ℚ}
    (hij : i ≠ j) :
    ∀ (lines : List String) (y : ℚ),
      para_line_strs j (draw_wrapped_lines i pg lh lines y).2 = [] := by
  intro lines
  induction lines with
  | nil => intro y; simp [draw_wrapped_lines, para_line_strs]
  | cons s rest ih =>
      intro y
      simp [draw_wrapped_lines, para_line_strs, hij] at ih ⊢
      exact ih (y - lh)

theorem first_line_y_draw_wrapped_lines (i pg : Nat) (lh : ℚ)
    (lines : List String) (y : ℚ) (h : lines ≠ []) :
    first_line_y i (draw_wrapped_lines i pg lh lines y).2 = some y := by
  cases lines with
  | nil => exact absurd rfl h
  | cons s rest => simp [draw_wrapped_lines, first_line_y, para_line_ys]

theorem para_line_strs_append (j : Nat) (a b : List Ev) :
    para_line_strs j (a ++ b) = para_line_strs j a ++ para_line_strs j b := by
  simp [para_line_strs]

theorem para_line_ys_append (j : Nat) (a b : List Ev) :
    para_line_ys j (a ++ b) = para_line_ys j a ++ para_line_ys j b := by
  simp [para_line_ys]

theorem line_indices_append (a b : List Ev) :
    line_indices (a ++ b) = line_indices a ++ line_indices b := by
  simp [line_indices]

theorem para_line_strs_page_break (j : Nat) (P : ChapterParams) (pn : Nat) :
    para_line_strs j (page_break_evs P pn) = [] := by
  unfold page_break_evs draw_page_number
  split <;> simp [para_line_strs, List.filterMap_eq_nil_iff]

theorem endPage_not_mem_draw_wrapped_lines {i pg : Nat} {lh : ℚ}
    (lines : List String) (y : ℚ) (pg' : Nat) :
    Ev.endPage pg' ∉ (draw_wrapped_lines i pg lh lines y).2 := by
  intro h
  obtain ⟨s, y0, _, he⟩ := mem_draw_wrapped_lines lines y _ h
  exact Ev.noConfusion he

theorem endPage_mem_page_break (P : ChapterParams) (pn : Nat) :
    Ev.endPage pn ∈ page_break_evs P pn := by
  unfold page_break_evs draw_page_number
  split <;> simp

-- ---------------------------------------------------------------------------
-- Claim C10: no page number below page 2
-- ---------------------------------------------------------------------------

/-- Claim C10: draw_page_number is a no-op whenever the page counter is
below 2, for every style, so the first page of a build (counter 1 after
the first start_page) never receives a page-number decoration; from
page 2 on it draws exactly the one decoration. -/
theorem claim_C10 (style : String) (n : Nat) :
    (n < 2 → draw_page_number n style = []) ∧
    (2 ≤ n → draw_page_number n style = [.pageNumText n style]) := by
  constructor
  · intro h; simp [draw_page_number, h]
  · intro h; simp [draw_page_number, Nat.not_lt.mpr h]

/-- Witness for claim C10 at page counter 1 and the center style. -/
theorem claim_C10_witness :
    1 < 2 ∧ draw_page_number 1 "center" = [] :=
  ⟨by norm_num, (claim_C10 "center" 1).1 (by norm_num)⟩

-- ---------------------------------------------------------------------------
-- Claim C7: the blank sentinel
-- ---------------------------------------------------------------------------

/-- Claim C7: a blank-sentinel paragraph only decrements the cursor by
the blank gap: no event is emitted (nothing drawn, no page finalize) and
the page counter is unchanged, regardless of the cursor, in particular
also when the cursor is already below the bottom limit. -/
theorem claim_C7 (P : ChapterParams) (i : Nat) (y : ℚ) (pn : Nat) :
    place_paragraph P i "" y pn = (y - P.blankGap, pn, []) := by
  simp [place_paragraph]

-- ---------------------------------------------------------------------------
-- Claim C2: the page-break decision
-- ---------------------------------------------------------------------------

/-- Claim C2: for a non-blank paragraph the loop measures the needed
height from the text metrics and finalizes a page exactly when the cursor
minus that height falls strictly below the bottom limit; in that case the
whole break sequence (page-number decoration, finalize, fresh page,
chrome redraw) precedes every line of the paragraph, which is then drawn
from the reset cursor on the new page; otherwise no page event occurs and
the lines are drawn from the current cursor on the current page. -/
theorem claim_C2 (P : ChapterParams) (i : Nat) (para : String) (y : ℚ)
    (pn : Nat) (h : para ≠ "") :
    ((∃ pg, Ev.endPage pg ∈ (place_paragraph P i para y pn).2.2) ↔
      y - text_height P para < P.bottomLimit) ∧
    (y - text_height P para < P.bottomLimit →
      place_paragraph P i para y pn =
        ((draw_wrapped_lines i (pn + 1) (P.size * P.lhf) (P.split para) P.topY).1
            - P.paraGap,
          pn + 1,
          page_break_evs P pn ++
            (draw_wrapped_lines i (pn + 1) (P.size * P.lhf) (P.split para)
              P.topY).2)) ∧
    (P.bottomLimit ≤ y - text_height P para →
      place_paragraph P i para y pn =
        ((draw_wrapped_lines i pn (P.size * P.lhf) (P.split para) y).1
            - P.paraGap,
          pn,
          (draw_wrapped_lines i pn (P.size * P.lhf) (P.split para) y).2)) := by
  refine ⟨?_, ?_, ?_⟩
  · constructor
    · rintro ⟨pg, hpg⟩
      by_contra hc
      rw [place_paragraph, if_neg h, if_neg hc] at hpg
      exact endPage_not_mem_draw_wrapped_lines _ _ _ hpg
    · intro hc
      refine ⟨pn, ?_⟩
      rw [place_paragraph, if_neg h, if_pos hc]
      simp only [List.mem_append]
      exact Or.inl (endPage_mem_page_break P pn)
  · intro hc
    rw [place_paragraph, if_neg h, if_pos hc]
  · intro hc
    rw [place_paragraph, if_neg h, if_neg (not_lt.mpr hc)]

/-- Witness for claim C2: a concrete paragraph near the bottom of an
editorial page triggers a page finalize. -/
theorem claim_C2_witness :
    ∃ pg, Ev.endPage pg ∈ (place_paragraph P_ed 0 "Hello" 50 1).2.2 :=
  (claim_C2 P_ed 0 "Hello" 50 1 (by decide)).1.mpr
    (by
      simp [P_ed, editorial_params, text_height, split_whole, margin_bottom,
        dget, List.lookup]
      norm_num)

-- ---------------------------------------------------------------------------
-- Claim C4: unknown page type is fatal and atomic
-- ---------------------------------------------------------------------------

theorem build_pages_spec (ps : List PageSpec) :
    ((∃ p ∈ ps, p.type ∉ RENDERER_KEYS) →
      ∃ t, t ∉ RENDERER_KEYS ∧ (∃ p ∈ ps, p.type = t) ∧
        build_pages ps = .error (unknown_page_type_msg t) ∧
        (∃ pre suf, unknown_page_type_msg t = pre ++ t ++ suf) ∧
        ∀ out, build_pages ps ≠ .ok out) ∧
    ((∀ p ∈ ps, p.type ∈ RENDERER_KEYS) →
      build_pages ps = .ok (ps.map (·.type))) := by
  induction ps with
  | nil =>
      constructor
      · rintro ⟨p, hp, _⟩; exact absurd hp (List.not_mem_nil p)
      · intro _; rfl
  | cons p rest ih =>
      by_cases hp : p.type ∈ RENDERER_KEYS
      · constructor
        · rintro ⟨q, hq, hqt⟩
          rcases List.mem_cons.mp hq with rfl | hq'
          · exact absurd hp hqt
          · obtain ⟨t, ht, ⟨q', hq', hq't⟩, herr, hname, _⟩ :=
              ih.1 ⟨q, hq', hqt⟩
            refine ⟨t, ht, ⟨q', List.mem_cons_of_mem _ hq', hq't⟩, ?_, hname, ?_⟩
            · unfold build_pages
              rw [if_pos hp, herr]
            · intro out hok
              unfold build_pages at hok
              rw [if_pos hp, herr] at hok
              exact Except.noConfusion hok
        · intro hall
          have hrest := ih.2 fun q hq => hall q (List.mem_cons_of_mem _ hq)
          unfold build_pages
          rw [if_pos hp, hrest, List.map_cons]
      · constructor
        · intro _
          refine ⟨p.type, hp, ⟨p, List.mem_cons_self p rest, rfl⟩, ?_, ?_, ?_⟩
          · unfold build_pages
            rw [if_neg hp]
          · exact ⟨"Unknown page type: '", "'", rfl⟩
          · intro out hok
            unfold build_pages at hok
            rw [if_neg hp] at hok
            exact Except.noConfusion hok
        · intro hall
          exact absurd (hall p (List.mem_cons_self p rest)) hp

/-- Claim C4: if any page of the config has a type outside the eight
registered renderer keys, build raises an error whose message names an
offending type and returns no output; if every page type is registered,
build fully succeeds with one renderer invocation per page in order. -/
theorem claim_C4 (config : ProductConfig) :
    ((∃ p ∈ config.pages, p.type ∉ RENDERER_KEYS) →
      ∃ t, t ∉ RENDERER_KEYS ∧ (∃ p ∈ config.pages, p.type = t) ∧
        build config = .error (unknown_page_type_msg t) ∧
        (∃ pre suf, unknown_page_type_msg t = pre ++ t ++ suf) ∧
        ∀ out, build config ≠ .ok out) ∧
    ((∀ p ∈ config.pages, p.type ∈ RENDERER_KEYS) →
      build config = .ok (config.pages.map (·.type))) :=
  build_pages_spec config.pages

/-- Witness for claim C4: a config with page type nonexistent fails with
an error naming it and yields no output, and a config with a registered
cover page builds fully. -/
theorem claim_C4_witness :
    (∃ t, t ∉ RENDERER_KEYS ∧ (∃ p ∈ cfg_bad.pages, p.type = t) ∧
      build cfg_bad = .error (unknown_page_type_msg t) ∧
      (∃ pre suf, unknown_page_type_msg t = pre ++ t ++ suf) ∧
      ∀ out, build cfg_bad ≠ .ok out) ∧
    build cfg_ok = .ok ["cover"] :=
  ⟨(claim_C4 cfg_bad).1 (by decide), (claim_C4 cfg_ok).2 (by decide)⟩

-- ---------------------------------------------------------------------------
-- Claim C8: layout-variant dispatch and its default
-- ---------------------------------------------------------------------------

/-- Counterexample to claim C8 as stated: the toc renderer does not fall
back to a clean variant sub-routine on an unrecognized layout — it has a
single routine that draws the clean header bar only when the layout is
exactly the string clean, so under the unrecognized layout mystery its
behaviour differs from its behaviour under clean. -/
theorem claim_C8_counterexample :
    toc_draws_header_bar "mystery" = false ∧
    toc_draws_header_bar "clean" = true ∧
    toc_draws_header_bar "mystery" ≠ toc_draws_header_bar "clean" := by
  refine ⟨by decide, by decide, by decide⟩

/-- Claim C8 as amended: the six renderers with layout-variant
sub-routines (cover, letter, prompt, writing, cta, chapter) dispatch
editorial and warm by name and default everything else to their clean
variant; the toc renderer has a single routine that draws its header bar
only when the layout is exactly clean (an unrecognized layout is treated
like any non-clean value, not dispatched to a clean sub-routine), and the
section renderer ignores the layout entirely. -/
theorem claim_C8_amended (layout : String) (h1 : layout ≠ "editorial")
    (h2 : layout ≠ "clean") (h3 : layout ≠ "warm") :
    (cover_pick_variant layout = .clean ∧
      letter_pick_variant layout = .clean ∧
      prompt_pick_variant layout = .clean ∧
      writing_pick_variant layout = .clean ∧
      cta_pick_variant layout = .clean ∧
      chapter_pick_variant layout = .clean) ∧
    toc_draws_header_bar layout = false ∧
    (∀ l : String, section_layout_behavior layout = section_layout_behavior l) ∧
    (cover_pick_variant "editorial" = .editorial ∧
      cover_pick_variant "clean" = .clean ∧
      cover_pick_variant "warm" = .warm) ∧
    (letter_pick_variant "editorial" = .editorial ∧
      letter_pick_variant "clean" = .clean ∧
      letter_pick_variant "warm" = .warm) ∧
    (prompt_pick_variant "editorial" = .editorial ∧
      prompt_pick_variant "clean" = .clean ∧
      prompt_pick_variant "warm" = .warm) ∧
    (writing_pick_variant "editorial" = .editorial ∧
      writing_pick_variant "clean" = .clean ∧
      writing_pick_variant "warm" = .warm) ∧
    (cta_pick_variant "editorial" = .editorial ∧
      cta_pick_variant "clean" = .clean ∧
      cta_pick_variant "warm" = .warm) ∧
    (chapter_pick_variant "editorial" = .editorial ∧
      chapter_pick_variant "clean" = .clean ∧
      chapter_pick_variant "warm" = .warm) := by
  refine ⟨⟨?_, ?_, ?_, ?_, ?_, ?_⟩, ?_, ?_, ?_, ?_, ?_, ?_, ?_, ?_⟩
  · simp [cover_pick_variant, h1, h3]
  · simp [letter_pick_variant, h1, h3]
  · simp [prompt_pick_variant, h1, h3]
  · simp [writing_pick_variant, h1, h3]
  · simp [cta_pick_variant, h1, h3]
  · simp [chapter_pick_variant, h1, h3]
  · simp [toc_draws_header_bar, h2]
  · intro l; rfl
  all_goals exact ⟨by decide, by decide, by decide⟩

/-- Witness for claim C8 as amended, at the unrecognized layout
mystery. -/
theorem claim_C8_witness :
    cover_pick_variant "mystery" = .clean ∧
    chapter_pick_variant "mystery" = .clean ∧
    toc_draws_header_bar "mystery" = false :=
  ⟨((claim_C8_amended "mystery" (by decide) (by decide) (by decide)).1).1,
    ((claim_C8_amended "mystery" (by decide) (by decide) (by decide)).1).2.2.2.2.2,
    (claim_C8_amended "mystery" (by decide) (by decide) (by decide)).2.1⟩

-- ---------------------------------------------------------------------------
-- Claim C9: the margin invariant is not enforced
-- ---------------------------------------------------------------------------

/-- Counterexample to claim C9 as stated: from_dict accepts margins of
400 points on each side of a 612-point-wide letter page without any
validation, build accepts the resulting config (an empty page list builds
successfully), the margin invariant is violated and the derived text-area
width is negative. -/
theorem claim_C9_counterexample :
    ProductConfig.from_dict raw_bad_margins = .ok cfg_bad_margins ∧
    build cfg_bad_margins = .ok [] ∧
    margin_left cfg_bad_margins.design = 400 ∧
    ¬ margins_ok cfg_bad_margins.design ∧
    text_area_w cfg_bad_margins.design < 0 := by
  refine ⟨rfl, rfl, ?_, ?_, ?_⟩
  · simp [cfg_bad_margins, margin_left, dget, List.lookup]
  · intro h
    obtain ⟨-, h2, -⟩ := h
    simp [cfg_bad_margins, margin_left, ctx_W, page_size_of, dget,
      List.lookup] at h2
    norm_num at h2
  · simp [cfg_bad_margins, text_area_w, margin_left, margin_right, ctx_W,
      page_size_of, dget, List.lookup]
    norm_num

/-- Claim C9 as amended: the margin invariant is not enforced anywhere —
from_dict stores arbitrary margin dictionaries — but margins satisfying
it always yield a strictly positive text-area width, and the default
margins satisfy it on both recognized page sizes. -/
theorem claim_C9_amended :
    (∀ d : DesignSystem, margins_ok d → 0 < text_area_w d) ∧
    margins_ok ({} : DesignSystem) ∧
    margins_ok ({ page_size := "a4" } : DesignSystem) := by
  refine ⟨?_, ?_, ?_⟩
  · intro d hd
    obtain ⟨h1, h2, h3, h4, _⟩ := hd
    unfold text_area_w
    linarith
  · refine ⟨?_, ?_, ?_, ?_, ?_, ?_, ?_, ?_⟩ <;>
      simp [margin_left, margin_right, margin_top, margin_bottom, ctx_W, ctx_H,
        page_size_of, dget, List.lookup] <;> norm_num
  · refine ⟨?_, ?_, ?_, ?_, ?_, ?_, ?_, ?_⟩ <;>
      simp [margin_left, margin_right, margin_top, margin_bottom, ctx_W, ctx_H,
        page_size_of, dget, List.lookup] <;> norm_num

/-- Witness for claim C9 as amended: the default design has a positive
text area. -/
theorem claim_C9_witness : 0 < text_area_w ({} : DesignSystem) :=
  claim_C9_amended.1 {} claim_C9_amended.2.1

-- ---------------------------------------------------------------------------
-- Claim C5: wrapped-height monotonicity in the maximum width
-- ---------------------------------------------------------------------------

theorem wrap_go_le {α : Type _} (wid : α → ℚ) (hw : ∀ a, 0 ≤ wid a) (sp : ℚ)
    (hsp : 0 ≤ sp) (W1 W2 : ℚ) (hW : W1 ≤ W2) :
    ∀ (ws : List α) (n1 n2 : Nat) (c1 c2 : ℚ), 0 ≤ c1 → 0 ≤ c2 →
      (n2 < n1 ∨ (n1 = n2 ∧ c2 ≤ c1)) →
      wrap_go wid sp W2 ws n2 c2 ≤ wrap_go wid sp W1 ws n1 c1 := by
  intro ws
  induction ws with
  | nil =>
      intro n1 n2 c1 c2 _ _ hinv
      rcases hinv with h | ⟨h, -⟩
      · exact Nat.le_of_lt h
      · exact Nat.le_of_eq h.symm
  | cons w ws ih =>
      intro n1 n2 c1 c2 hc1 hc2 hinv
      simp only [wrap_go]
      by_cases a1 : c1 + sp + wid w ≤ W1 <;> by_cases a2 : c2 + sp + wid w ≤ W2
      · rw [if_pos a1, if_pos a2]
        refine ih n1 n2 _ _ (by linarith [hw w]) (by linarith [hw w]) ?_
        rcases hinv with h | ⟨heq, hle⟩
        · exact Or.inl h
        · exact Or.inr ⟨heq, by linarith⟩
      · rw [if_pos a1, if_neg a2]
        refine ih n1 (n2 + 1) _ _ (by linarith [hw w]) (hw w) ?_
        rcases hinv with hlt | ⟨heq, hle⟩
        · by_cases h : n2 + 1 < n1
          · exact Or.inl h
          · have h1 : n1 = n2 + 1 := by omega
            refine Or.inr ⟨h1, ?_⟩
            have := hw w
            linarith
        · exfalso
          have : c1 + sp + wid w ≤ W2 := le_trans a1 hW
          have : c2 + sp + wid w ≤ W2 := by linarith
          exact a2 this
      · rw [if_neg a1, if_pos a2]
        refine ih (n1 + 1) n2 (wid w) _ (hw w) (by linarith [hw w]) ?_
        rcases hinv with hlt | ⟨heq, -⟩
        · exact Or.inl (by omega)
        · exact Or.inl (by omega)
      · rw [if_neg a1, if_neg a2]
        refine ih (n1 + 1) (n2 + 1) (wid w) (wid w) (hw w) (hw w) ?_
        rcases hinv with hlt | ⟨heq, -⟩
        · exact Or.inl (by omega)
        · exact Or.inr ⟨by omega, le_refl _⟩

theorem line_count_le {α : Type _} (wid : α → ℚ) (hw : ∀ a, 0 ≤ wid a)
    (sp : ℚ) (hsp : 0 ≤ sp) (W1 W2 : ℚ) (hW : W1 ≤ W2) (ws : List α) :
    line_count wid sp W2 ws ≤ line_count wid sp W1 ws := by
  cases ws with
  | nil => exact le_refl _
  | cons w ws' =>
      exact wrap_go_le wid hw sp hsp W1 W2 hW ws' 1 1 (wid w) (wid w)
        (hw w) (hw w) (Or.inr ⟨rfl, le_refl _⟩)

/-- Claim C5 as amended: for fixed text, font metrics and size, with text
in the wrapping regime and a strictly narrower maximum width, the
measured wrapped height never decreases (it need not strictly increase:
two different widths can produce the same line count and hence the same
height). -/
theorem claim_C5_amended {α : Type _} (wid : α → ℚ) (hw : ∀ a, 0 ≤ wid a)
    (sp : ℚ) (hsp : 0 ≤ sp) (size lhf : ℚ) (hsize : 0 < size) (hlhf : 0 < lhf)
    (W1 W2 : ℚ) (hW : W1 < W2) (ws : List α)
    (_hwrap : 2 ≤ line_count wid sp W2 ws) :
    text_height_of (line_count wid sp W2 ws) size lhf ≤
      text_height_of (line_count wid sp W1 ws) size lhf := by
  have h := line_count_le wid hw sp hsp W1 W2 hW.le ws
  have hc : ((line_count wid sp W2 ws : ℚ)) ≤ (line_count wid sp W1 ws : ℚ) := by
    exact_mod_cast h
  unfold text_height_of
  exact mul_le_mul_of_nonneg_right
    (mul_le_mul_of_nonneg_right hc hsize.le) hlhf.le

/-- Witness for claim C5 as amended: two words of width 10 with space
width 1, at maximum widths 12 and 15, both wrap to two lines. -/
theorem claim_C5_witness :
    (∀ a : Unit, 0 ≤ (fun _ : Unit => (10 : ℚ)) a) ∧
    (0 : ℚ) ≤ 1 ∧ (0 : ℚ) < 11 ∧ (0 : ℚ) < 33 / 20 ∧ (12 : ℚ) < 15 ∧
    2 ≤ line_count (fun _ : Unit => (10 : ℚ)) 1 15 [(), ()] ∧
    text_height_of (line_count (fun _ : Unit => (10 : ℚ)) 1 15 [(), ()]) 11 (33 / 20) ≤
      text_height_of (line_count (fun _ : Unit => (10 : ℚ)) 1 12 [(), ()]) 11 (33 / 20) :=
  ⟨fun _ => by norm_num, by norm_num, by norm_num, by norm_num, by norm_num,
    by norm_num [line_count, wrap_go],
    claim_C5_amended (fun _ : Unit => (10 : ℚ)) (fun _ => by norm_num) 1
      (by norm_num) 11 (33 / 20) (by norm_num) (by norm_num) 12 15 (by norm_num)
      [(), ()] (by norm_num [line_count, wrap_go])⟩

/-- Counterexample to claim C5 as stated: strict monotonicity fails — at
widths 12 and 15 the same two words wrap to the same two lines, so the
heights are equal, not strictly ordered, although both widths are in the
wrapping regime. -/
theorem claim_C5_counterexample :
    (12 : ℚ) < 15 ∧
    2 ≤ line_count (fun _ : Unit => (10 : ℚ)) 1 15 [(), ()] ∧
    2 ≤ line_count (fun _ : Unit => (10 : ℚ)) 1 12 [(), ()] ∧
    ¬ (text_height_of (line_count (fun _ : Unit => (10 : ℚ)) 1 12 [(), ()]) 11 (33 / 20) >
        text_height_of (line_count (fun _ : Unit => (10 : ℚ)) 1 15 [(), ()]) 11 (33 / 20)) := by
  refine ⟨by norm_num, by norm_num [line_count, wrap_go],
    by norm_num [line_count, wrap_go], ?_⟩
  norm_num [line_count, wrap_go, text_height_of]

-- ---------------------------------------------------------------------------
-- Claim C3: the auto-fit title search
-- ---------------------------------------------------------------------------

theorem fit_title_go_spec (count : ℚ → Nat) (minS : ℚ) :
    ∀ (f : Nat) (size : ℚ), size - (f : ℚ) ≤ minS →
      (∃ k : Nat, fit_title_go count minS f size = size - (k : ℚ) ∧
        minS < size - (k : ℚ) ∧ count (size - (k : ℚ)) ≤ 3 ∧
        ∀ j : Nat, j < k → 3 < count (size - (j : ℚ))) ∨
      (fit_title_go count minS f size = minS ∧
        ∀ k : Nat, minS < size - (k : ℚ) → 3 < count (size - (k : ℚ))) := by
  intro f
  induction f with
  | zero =>
      intro size hf
      right
      refine ⟨rfl, ?_⟩
      intro k hk
      exfalso
      have hk0 : (0 : ℚ) ≤ (k : ℚ) := Nat.cast_nonneg k
      push_cast at hf
      linarith
  | succ f ih =>
      intro size hf
      by_cases hms : minS < size
      · by_cases hcnt : count size ≤ 3
        · left
          refine ⟨0, ?_, ?_, ?_, ?_⟩
          · simp [fit_title_go, hms, hcnt]
          · simpa using hms
          · simpa using hcnt
          · intro j hj; exact absurd hj (Nat.not_lt_zero j)
        · have hstep : fit_title_go count minS (f + 1) size =
              fit_title_go count minS f (size - 1) := by
            simp [fit_title_go, hms, hcnt]
          have hf' : (size - 1) - (f : ℚ) ≤ minS := by push_cast at hf ⊢; linarith
          rcases ih (size - 1) hf' with ⟨k, hg, hlt, hc, hall⟩ | ⟨hg, hall⟩
          · left
            refine ⟨k + 1, ?_, ?_, ?_, ?_⟩
            · rw [hstep, hg]; push_cast; ring
            · have he : size - ((k : ℚ) + 1) = (size - 1) - (k : ℚ) := by ring
              push_cast
              rw [he]
              exact hlt
            · have he : size - (((k : Nat) + 1 : Nat) : ℚ) = (size - 1) - (k : ℚ) := by
                push_cast; ring
              rw [he]
              exact hc
            · intro j hj
              match j with
              | 0 =>
                  simpa using lt_of_not_le hcnt
              | Nat.succ m =>
                  have hm : m < k := by omega
                  have he : size - (((m : Nat) + 1 : Nat) : ℚ) = (size - 1) - (m : ℚ) := by
                    push_cast; ring
                  rw [he]
                  exact hall m hm
          · right
            refine ⟨by rw [hstep, hg], ?_⟩
            intro k hk
            match k with
            | 0 =>
                simpa using lt_of_not_le hcnt
            | Nat.succ m =>
                have he : size - (((m : Nat) + 1 : Nat) : ℚ) = (size - 1) - (m : ℚ) := by
                  push_cast; ring
                rw [he]
                apply hall m
                rw [he] at hk
                exact hk
      · right
        constructor
        · simp [fit_title_go, hms]
        · intro k hk
          exfalso
          have hk0 : (0 : ℚ) ≤ (k : ℚ) := Nat.cast_nonneg k
          push_neg at hms
          linarith

theorem fit_fuel_le (maxS minS : ℚ) (h : minS ≤ maxS) :
    maxS - ((⌈maxS - minS⌉.toNat : Nat) : ℚ) ≤ minS := by
  have h0 : (0 : ℚ) ≤ maxS - minS := by linarith
  have h1 : (0 : ℤ) ≤ ⌈maxS - minS⌉ := Int.ceil_nonneg h0
  have h2 := congrArg (fun z : ℤ => (z : ℚ)) (Int.toNat_of_nonneg h1)
  push_cast at h2
  have h3 : (maxS - minS) ≤ (⌈maxS - minS⌉ : ℚ) := Int.le_ceil _
  linarith

theorem title_line_strs_go {lh : ℚ} {pg : Nat} :
    ∀ (lines : List String) (y : ℚ),
      title_line_strs (title_lines_go lh pg lines y).2 = lines := by
  intro lines
  induction lines with
  | nil => intro y; simp [title_lines_go, title_line_strs]
  | cons s rest ih =>
      intro y
      simp [title_lines_go, title_line_strs] at ih ⊢
      exact ih (y - lh)

/-- Claim C3: draw_title_fitted selects a size between the bounds; the
selected size is the largest size on the descending unit grid from the
maximum that wraps to at most 3 lines (every larger grid size wraps to
more), or exactly the minimum size when no grid size above the minimum
does; and the text is always drawn in full — one title line per wrapped
line at the selected size, overflow at the minimum accepted. -/
theorem claim_C3 (linesAt : ℚ → List String) (maxS minS : ℚ)
    (h : minS ≤ maxS) (y lhf : ℚ) (pg : Nat) :
    (minS ≤ fit_title_size (fun q => (linesAt q).length) maxS minS ∧
      fit_title_size (fun q => (linesAt q).length) maxS minS ≤ maxS) ∧
    ((∃ k : Nat,
        fit_title_size (fun q => (linesAt q).length) maxS minS = maxS - (k : ℚ) ∧
        minS < maxS - (k : ℚ) ∧ (linesAt (maxS - (k : ℚ))).length ≤ 3 ∧
        ∀ j : Nat, j < k → 3 < (linesAt (maxS - (j : ℚ))).length) ∨
      (fit_title_size (fun q => (linesAt q).length) maxS minS = minS ∧
        ∀ k : Nat, minS < maxS - (k : ℚ) → 3 < (linesAt (maxS - (k : ℚ))).length)) ∧
    title_line_strs (draw_title_fitted linesAt maxS minS y lhf pg).2 =
      linesAt (fit_title_size (fun q => (linesAt q).length) maxS minS) := by
  have hspec := fit_title_go_spec (fun q => (linesAt q).length) minS
    ⌈maxS - minS⌉.toNat maxS (fit_fuel_le maxS minS h)
  have hfit : fit_title_size (fun q => (linesAt q).length) maxS minS =
      fit_title_go (fun q => (linesAt q).length) minS
        ⌈maxS - minS⌉.toNat maxS := rfl
  refine ⟨?_, ?_, ?_⟩
  · rcases hspec with ⟨k, hg, hlt, -, -⟩ | ⟨hg, -⟩
    · rw [hfit, hg]
      constructor
      · exact hlt.le
      · have hk0 : (0 : ℚ) ≤ (k : ℚ) := Nat.cast_nonneg k
        linarith
    · rw [hfit, hg]
      exact ⟨le_refl _, h⟩
  · rw [hfit]
    exact hspec
  · unfold draw_title_fitted
    exact title_line_strs_go _ _

/-- Witness for claim C3: a concrete wrapped-lines profile with bounds
14 and 20; the drawn title lines are the wrapped lines at the selected
size. -/
theorem claim_C3_witness :
    (14 : ℚ) ≤ 20 ∧
    title_line_strs (draw_title_fitted linesAt_fix 20 14 700 (13 / 10) 1).2 =
      linesAt_fix (fit_title_size (fun q => (linesAt_fix q).length) 20 14) :=
  ⟨by norm_num, (claim_C3 linesAt_fix 20 14 (by norm_num) 700 (13 / 10) 1).2.2⟩

-- ---------------------------------------------------------------------------
-- Claim C1: paragraph atomicity — supporting lemmas
-- ---------------------------------------------------------------------------

theorem stamp_mono_const (c : Nat) :
    ∀ l : List Ev, (∀ e ∈ l, e.stamp = c) → StampMono l := by
  intro l
  induction l with
  | nil => intro _; exact List.Pairwise.nil
  | cons a t ih =>
      intro h
      refine List.Pairwise.cons ?_ (ih fun e he => h e (List.mem_cons_of_mem _ he))
      intro b hb
      rw [h a (List.mem_cons_self a t), h b (List.mem_cons_of_mem _ hb)]

theorem stamp_draw_wrapped_lines {i pg : Nat} {lh : ℚ} (lines : List String)
    (y : ℚ) : ∀ e ∈ (draw_wrapped_lines i pg lh lines y).2, e.stamp = 2 * pg := by
  intro e he
  obtain ⟨s, y0, -, rfl⟩ := mem_draw_wrapped_lines lines y e he
  rfl

theorem stamp_mono_draw_wrapped_lines {i pg : Nat} {lh : ℚ}
    (lines : List String) (y : ℚ) :
    StampMono (draw_wrapped_lines i pg lh lines y).2 :=
  stamp_mono_const (2 * pg) _ (stamp_draw_wrapped_lines lines y)

theorem page_break_evs_stamp (P : ChapterParams) (pn : Nat) :
    ∀ e ∈ page_break_evs P pn, 2 * pn ≤ e.stamp ∧ e.stamp ≤ 2 * (pn + 1) := by
  intro e he
  by_cases h2 : pn < 2 <;>
    simp only [page_break_evs, draw_page_number, if_pos, if_neg, h2,
      if_true, if_false, List.nil_append, List.cons_append, List.mem_cons,
      List.mem_map, List.append_nil] at he
  · rcases he with rfl | rfl | ⟨nm, -, rfl⟩ <;> simp only [Ev.stamp] <;> omega
  · rcases he with rfl | rfl | rfl | ⟨nm, -, rfl⟩ <;> simp only [Ev.stamp] <;>
      omega

theorem page_break_evs_not_line (P : ChapterParams) (pn : Nat) :
    ∀ e ∈ page_break_evs P pn, ∀ j s y0 pg, e ≠ Ev.line j s y0 pg := by
  intro e he j s y0 pg
  by_cases h2 : pn < 2 <;>
    simp only [page_break_evs, draw_page_number, h2, if_true, if_false,
      List.nil_append, List.cons_append, List.mem_cons, List.mem_map] at he
  · rcases he with rfl | rfl | ⟨nm, -, rfl⟩ <;> exact fun h => Ev.noConfusion h
  · rcases he with rfl | rfl | rfl | ⟨nm, -, rfl⟩ <;> exact fun h => Ev.noConfusion h

theorem page_break_evs_mono (P : ChapterParams) (pn : Nat) :
    StampMono (page_break_evs P pn) := by
  have hchrome : StampMono (P.chromeNames.map fun nm => Ev.chrome nm (pn + 1)) := by
    refine stamp_mono_const (2 * (pn + 1)) _ ?_
    intro e he
    obtain ⟨nm, -, rfl⟩ := List.mem_map.mp he
    rfl
  have hbc : StampMono (Ev.beginPage P.bg (pn + 1) ::
      P.chromeNames.map fun nm => Ev.chrome nm (pn + 1)) := by
    refine List.Pairwise.cons ?_ hchrome
    intro b hb
    obtain ⟨nm, -, rfl⟩ := List.mem_map.mp hb
    exact le_refl _
  have hebc : StampMono (Ev.endPage pn :: Ev.beginPage P.bg (pn + 1) ::
      P.chromeNames.map fun nm => Ev.chrome nm (pn + 1)) := by
    refine List.Pairwise.cons ?_ hbc
    intro b hb
    rcases List.mem_cons.mp hb with rfl | hb'
    · simp only [Ev.stamp]; omega
    · obtain ⟨nm, -, rfl⟩ := List.mem_map.mp hb'
      simp only [Ev.stamp]; omega
  by_cases h2 : pn < 2 <;>
    simp only [StampMono, page_break_evs, draw_page_number, h2, if_true,
      if_false, List.nil_append, List.cons_append]
  · exact hebc
  · refine List.Pairwise.cons ?_ hebc
    intro b hb
    rcases List.mem_cons.mp hb with rfl | hb'
    · simp only [Ev.stamp]; omega
    · rcases List.mem_cons.mp hb' with rfl | hb''
      · simp only [Ev.stamp]; omega
      · obtain ⟨nm, -, rfl⟩ := List.mem_map.mp hb''
        simp only [Ev.stamp]; omega

theorem stamp_mono_append {l1 l2 : List Ev} (b : Nat) (h1 : StampMono l1)
    (h2 : StampMono l2) (hb1 : ∀ e ∈ l1, e.stamp ≤ b)
    (hb2 : ∀ e ∈ l2, b ≤ e.stamp) : StampMono (l1 ++ l2) := by
  rw [StampMono, List.pairwise_append]
  exact ⟨h1, h2, fun a ha c hc => le_trans (hb1 a ha) (hb2 c hc)⟩

theorem para_line_strs_eq_nil_of_lb {m : Nat} {evs : List Ev}
    (h : ∀ e ∈ evs, ∀ j s y0 pg, e = Ev.line j s y0 pg → m ≤ j)
    {j' : Nat} (hj : j' < m) : para_line_strs j' evs = [] := by
  unfold para_line_strs
  rw [List.filterMap_eq_nil_iff]
  intro e he
  cases e with
  | line jj s yy pp =>
      have hle := h _ he jj s yy pp rfl
      simp only []
      rw [if_neg (by omega)]
  | pageNumText n style => rfl
  | endPage pg => rfl
  | beginPage bg pg => rfl
  | chrome nm pg => rfl
  | titleLine s yy pg => rfl
  | decor nm yy pg => rfl

theorem mem_line_indices {x : Nat} {evs : List Ev} :
    x ∈ line_indices evs ↔ ∃ s y0 pg, Ev.line x s y0 pg ∈ evs := by
  unfold line_indices
  rw [List.mem_filterMap]
  constructor
  · rintro ⟨e, he, hx⟩
    cases e <;> simp [Ev.paraIdx] at hx
    subst hx
    exact ⟨_, _, _, he⟩
  · rintro ⟨s, y0, pg, h⟩
    exact ⟨_, h, rfl⟩

theorem pairwise_le_const (c : Nat) {l : List Nat} (h : ∀ x ∈ l, x = c) :
    l.Pairwise (· ≤ ·) := by
  induction l with
  | nil => exact List.Pairwise.nil
  | cons a t ih =>
      refine List.Pairwise.cons ?_ (ih fun e he => h e (List.mem_cons_of_mem _ he))
      intro b hb
      rw [h a (List.mem_cons_self a t), h b (List.mem_cons_of_mem _ hb)]

theorem place_paragraph_eq_blank (P : ChapterParams) (i : Nat) (y : ℚ)
    (pn : Nat) : place_paragraph P i "" y pn = (y - P.blankGap, pn, []) := by
  simp [place_paragraph]

theorem place_paragraph_eq_break {P : ChapterParams} {i : Nat} {para : String}
    {y : ℚ} {pn : Nat} (h : para ≠ "")
    (hc : y - text_height P para < P.bottomLimit) :
    place_paragraph P i para y pn =
      ((draw_wrapped_lines i (pn + 1) (P.size * P.lhf) (P.split para) P.topY).1
          - P.paraGap,
        pn + 1,
        page_break_evs P pn ++
          (draw_wrapped_lines i (pn + 1) (P.size * P.lhf) (P.split para)
            P.topY).2) := by
  rw [place_paragraph, if_neg h, if_pos hc]

theorem place_paragraph_eq_stay {P : ChapterParams} {i : Nat} {para : String}
    {y : ℚ} {pn : Nat} (h : para ≠ "")
    (hc : ¬ (y - text_height P para < P.bottomLimit)) :
    place_paragraph P i para y pn =
      ((draw_wrapped_lines i pn (P.size * P.lhf) (P.split para) y).1
          - P.paraGap,
        pn,
        (draw_wrapped_lines i pn (P.size * P.lhf) (P.split para) y).2) := by
  rw [place_paragraph, if_neg h, if_neg hc]

theorem place_paragraph_props (P : ChapterParams) (i : Nat) (para : String)
    (y : ℚ) (pn : Nat) :
    pn ≤ (place_paragraph P i para y pn).2.1 ∧
    (∀ e ∈ (place_paragraph P i para y pn).2.2,
      2 * pn ≤ e.stamp ∧ e.stamp ≤ 2 * (place_paragraph P i para y pn).2.1) ∧
    StampMono (place_paragraph P i para y pn).2.2 ∧
    (∀ e ∈ (place_paragraph P i para y pn).2.2, ∀ j s y0 pg,
      e = Ev.line j s y0 pg → j = i ∧ pg = (place_paragraph P i para y pn).2.1) ∧
    (para ≠ "" →
      para_line_strs i (place_paragraph P i para y pn).2.2 = P.split para) ∧
    (∀ j, j ≠ i → para_line_strs j (place_paragraph P i para y pn).2.2 = []) := by
  by_cases hb : para = ""
  · subst hb
    rw [place_paragraph_eq_blank]
    refine ⟨le_refl _, ?_, List.Pairwise.nil, ?_, ?_, ?_⟩
    · intro e he; exact absurd he (List.not_mem_nil e)
    · intro e he; exact absurd he (List.not_mem_nil e)
    · intro h; exact absurd rfl h
    · intro j _; simp [para_line_strs]
  · by_cases hc : y - text_height P para < P.bottomLimit
    · rw [place_paragraph_eq_break hb hc]
      dsimp only
      refine ⟨Nat.le_succ pn, ?_, ?_, ?_, ?_, ?_⟩
      · intro e he
        rcases List.mem_append.mp he with h | h
        · exact page_break_evs_stamp P pn e h
        · rw [stamp_draw_wrapped_lines _ _ e h]
          omega
      · refine stamp_mono_append (2 * (pn + 1)) (page_break_evs_mono P pn)
          (stamp_mono_draw_wrapped_lines _ _) ?_ ?_
        · intro e he; exact (page_break_evs_stamp P pn e he).2
        · intro e he; rw [stamp_draw_wrapped_lines _ _ e he]
      · intro e he j s y0 pg hline
        rcases List.mem_append.mp he with h | h
        · exact absurd hline (page_break_evs_not_line P pn e h j s y0 pg)
        · obtain ⟨s', y0', -, he'⟩ := mem_draw_wrapped_lines _ _ e h
          have hh := hline.symm.trans he'
          injection hh with h1 h2 h3 h4
          exact ⟨h1, h4⟩
      · intro _
        rw [para_line_strs_append, para_line_strs_page_break, List.nil_append,
          para_line_strs_draw_wrapped_lines]
      · intro j hj
        rw [para_line_strs_append, para_line_strs_page_break,
          para_line_strs_draw_wrapped_lines_ne (Ne.symm hj), List.nil_append]
    · rw [place_paragraph_eq_stay hb hc]
      dsimp only
      refine ⟨le_refl _, ?_, stamp_mono_draw_wrapped_lines _ _, ?_, ?_, ?_⟩
      · intro e he
        rw [stamp_draw_wrapped_lines _ _ e he]
        omega
      · intro e he j s y0 pg hline
        obtain ⟨s', y0', -, he'⟩ := mem_draw_wrapped_lines _ _ e he
        have hh := hline.symm.trans he'
        injection hh with h1 h2 h3 h4
        exact ⟨h1, h4⟩
      · intro _
        rw [para_line_strs_draw_wrapped_lines]
      · intro j hj
        rw [para_line_strs_draw_wrapped_lines_ne (Ne.symm hj)]

theorem chapter_body_loop_props (P : ChapterParams) :
    ∀ (paras : List String) (i0 : Nat) (y : ℚ) (pn : Nat),
      pn ≤ (chapter_body_loop P paras i0 y pn).2.1 ∧
      (∀ e ∈ (chapter_body_loop P paras i0 y pn).2.2,
        2 * pn ≤ e.stamp ∧
          e.stamp ≤ 2 * (chapter_body_loop P paras i0 y pn).2.1) ∧
      StampMono (chapter_body_loop P paras i0 y pn).2.2 ∧
      (∀ e ∈ (chapter_body_loop P paras i0 y pn).2.2, ∀ j s y0 pg,
        e = Ev.line j s y0 pg → i0 ≤ j) ∧
      (∀ j s1 y1 p1 s2 y2 p2,
        Ev.line j s1 y1 p1 ∈ (chapter_body_loop P paras i0 y pn).2.2 →
        Ev.line j s2 y2 p2 ∈ (chapter_body_loop P paras i0 y pn).2.2 →
        p1 = p2) ∧
      List.Pairwise (· ≤ ·)
        (line_indices (chapter_body_loop P paras i0 y pn).2.2) ∧
      (∀ k, (hk : k < paras.length) → paras.get ⟨k, hk⟩ ≠ "" →
        para_line_strs (i0 + k) (chapter_body_loop P paras i0 y pn).2.2 =
          P.split (paras.get ⟨k, hk⟩)) := by
  intro paras
  induction paras with
  | nil =>
      intro i0 y pn
      refine ⟨le_refl _, ?_, List.Pairwise.nil, ?_, ?_, ?_, ?_⟩
      · intro e he; exact absurd he (List.not_mem_nil e)
      · intro e he; exact absurd he (List.not_mem_nil e)
      · intro j s1 y1 p1 s2 y2 p2 h1 _
        exact absurd h1 (List.not_mem_nil _)
      · exact List.Pairwise.nil
      · intro k hk; exact absurd hk (Nat.not_lt_zero k)
  | cons para rest ih =>
      intro i0 y pn
      obtain ⟨s1, s2, s3, s4, s5, s6⟩ := place_paragraph_props P i0 para y pn
      obtain ⟨r1, r2, r3, r4, r5, r6, r7⟩ :=
        ih (i0 + 1) (place_paragraph P i0 para y pn).1
          (place_paragraph P i0 para y pn).2.1
      dsimp only [chapter_body_loop]
      have hmul : 2 * (place_paragraph P i0 para y pn).2.1 ≤
          2 * (chapter_body_loop P rest (i0 + 1)
            (place_paragraph P i0 para y pn).1
            (place_paragraph P i0 para y pn).2.1).2.1 := by omega
      refine ⟨le_trans s1 r1, ?_, ?_, ?_, ?_, ?_, ?_⟩
      · intro e he
        rcases List.mem_append.mp he with h | h
        · exact ⟨(s2 e h).1, le_trans (s2 e h).2 hmul⟩
        · exact ⟨le_trans (by omega) (r2 e h).1, (r2 e h).2⟩
      · exact stamp_mono_append (2 * (place_paragraph P i0 para y pn).2.1)
          s3 r3 (fun e he => (s2 e he).2) (fun e he => (r2 e he).1)
      · intro e he j s y0 pg hline
        rcases List.mem_append.mp he with h | h
        · exact le_of_eq (s4 e h j s y0 pg hline).1.symm
        · exact le_trans (Nat.le_succ i0) (r4 e h j s y0 pg hline)
      · intro j s1' y1 p1 s2' y2 p2 h1 h2
        rcases List.mem_append.mp h1 with ha | ha <;>
          rcases List.mem_append.mp h2 with hb | hb
        · rw [(s4 _ ha j s1' y1 p1 rfl).2, (s4 _ hb j s2' y2 p2 rfl).2]
        · exfalso
          have hja := (s4 _ ha j s1' y1 p1 rfl).1
          have hjb := r4 _ hb j s2' y2 p2 rfl
          omega
        · exfalso
          have hja := r4 _ ha j s1' y1 p1 rfl
          have hjb := (s4 _ hb j s2' y2 p2 rfl).1
          omega
        · exact r5 j s1' y1 p1 s2' y2 p2 ha hb
      · rw [line_indices_append, List.pairwise_append]
        refine ⟨?_, r6, ?_⟩
        · refine pairwise_le_const i0 ?_
          intro x hx
          obtain ⟨s, y0, pg, hmem⟩ := mem_line_indices.mp hx
          exact (s4 _ hmem x s y0 pg rfl).1
        · intro a ha b hb
          obtain ⟨s, y0, pg, hmem⟩ := mem_line_indices.mp ha
          obtain ⟨s', y0', pg', hmem'⟩ := mem_line_indices.mp hb
          have h1 := (s4 _ hmem a s y0 pg rfl).1
          have h2 := r4 _ hmem' b s' y0' pg' rfl
          omega
      · intro k hk hne
        cases k with
        | zero =>
            rw [Nat.add_zero, para_line_strs_append,
              para_line_strs_eq_nil_of_lb r4 (Nat.lt_succ_self i0),
              List.append_nil]
            exact s5 hne
        | succ m =>
            have hk' : m < rest.length := by
              simpa using Nat.lt_of_succ_lt_succ (by simpa using hk)
            rw [para_line_strs_append, s6 _ (by omega), List.nil_append,
              show i0 + (m + 1) = (i0 + 1) + m by omega]
            exact r7 m hk' hne

-- ---------------------------------------------------------------------------
-- Claim C1: paragraph atomicity
-- ---------------------------------------------------------------------------

/-- Claim C1: in the chapter body loop, no paragraph has line events on
both sides of any page-finalize event (every paragraph is drawn entirely
on one page), paragraphs are drawn in input order (line-event paragraph
indices are nondecreasing along the trace), and every non-blank
paragraph is drawn entirely — its line events are exactly its wrapped
lines in order. -/
theorem claim_C1 (P : ChapterParams) (paras : List String) (i0 : Nat)
    (y : ℚ) (pn : Nat) :
    (∀ j l pg r s1 y1 p1 s2 y2 p2,
      (chapter_body_loop P paras i0 y pn).2.2 = l ++ Ev.endPage pg :: r →
      Ev.line j s1 y1 p1 ∈ l → Ev.line j s2 y2 p2 ∈ r → False) ∧
    List.Pairwise (· ≤ ·)
      (line_indices (chapter_body_loop P paras i0 y pn).2.2) ∧
    (∀ k, (hk : k < paras.length) → paras.get ⟨k, hk⟩ ≠ "" →
      para_line_strs (i0 + k) (chapter_body_loop P paras i0 y pn).2.2 =
        P.split (paras.get ⟨k, hk⟩)) := by
  obtain ⟨-, -, h3, -, h5, h6, h7⟩ := chapter_body_loop_props P paras i0 y pn
  refine ⟨?_, h6, h7⟩
  intro j l pg r s1 y1 p1 s2 y2 p2 hsplit hm1 hm2
  have hmem1 : Ev.line j s1 y1 p1 ∈ (chapter_body_loop P paras i0 y pn).2.2 := by
    rw [hsplit]
    exact List.mem_append.mpr (Or.inl hm1)
  have hmem2 : Ev.line j s2 y2 p2 ∈ (chapter_body_loop P paras i0 y pn).2.2 := by
    rw [hsplit]
    exact List.mem_append.mpr (Or.inr (List.mem_cons_of_mem _ hm2))
  have hpage := h5 j s1 y1 p1 s2 y2 p2 hmem1 hmem2
  rw [hsplit, StampMono, List.pairwise_append] at h3
  obtain ⟨-, hcons, hcross⟩ := h3
  have h1 : (Ev.line j s1 y1 p1).stamp ≤ (Ev.endPage pg).stamp :=
    hcross _ hm1 _ (List.mem_cons_self _ _)
  rw [List.pairwise_cons] at hcons
  have h2 : (Ev.endPage pg).stamp ≤ (Ev.line j s2 y2 p2).stamp := hcons.1 _ hm2
  simp only [Ev.stamp] at h1 h2
  omega

/-- Witness for claim C1: the single concrete paragraph is drawn entirely,
its line events being exactly its wrapped lines. -/
theorem claim_C1_witness :
    para_line_strs 0 ((chapter_body_loop P_ed ["Hello"] 0 700 1).2.2) =
      ["Hello"] :=
  (claim_C1 P_ed ["Hello"] 0 700 1).2.2 0 (by decide) (by decide)

-- ---------------------------------------------------------------------------
-- Claim C6: the cursor reset after a page break
-- ---------------------------------------------------------------------------

theorem para_line_ys_page_break (j : Nat) (P : ChapterParams) (pn : Nat) :
    para_line_ys j (page_break_evs P pn) = [] := by
  unfold page_break_evs draw_page_number
  split <;> simp [para_line_ys, List.filterMap_eq_nil_iff]

/-- Counterexample to claim C6 as stated: in the warm layout the first
page's content starts at H minus 90 (the first paragraph of a heading-less
chapter is drawn there), but after a page break the cursor is reset to H
minus 80, so the deferred paragraph is drawn at a different offset than
the first page's content start. -/
theorem claim_C6_counterexample :
    first_line_y 0 warm_run.2.2 = some (warm_start_y d6) ∧
    warm_start_y d6 = 702 ∧
    Ev.endPage 1 ∈ warm_run.2.2 ∧
    first_line_y 1 warm_run.2.2 = some 712 ∧
    (712 : ℚ) ≠ warm_start_y d6 := by
  refine ⟨?_, ?_, ?_, ?_, ?_⟩ <;>
    norm_num +decide [warm_run, render_warm, warm_params, warm_start_y,
      chapter_body_loop, place_paragraph, text_height, split_whole,
      draw_wrapped_lines, page_break_evs, draw_page_number, first_line_y,
      para_line_ys, margin_bottom, ctx_H, ctx_W, page_size_of, dget, d6,
      List.lookup, text_area_w, margin_left, margin_right, font_of]

/-- Claim C6 as amended: whenever a page break occurs, the cursor is
reset to the loop's fixed reset offset, identically on every continuation
page — the deferred paragraph's first line is always drawn exactly there;
for the editorial and clean variants this offset equals the variant's
first-page content start, but for the warm variant the continuation
offset is H minus 80 while the first page's content starts at H minus
90. -/
theorem claim_C6_amended (sp : SplitFun) (d : DesignSystem) :
    (∀ (P : ChapterParams) (i : Nat) (para : String) (y : ℚ) (pn : Nat),
      para ≠ "" → y - text_height P para < P.bottomLimit →
      P.split para ≠ [] →
      first_line_y i (place_paragraph P i para y pn).2.2 = some P.topY) ∧
    (editorial_params sp d).topY = editorial_start_y d ∧
    (clean_params sp d).topY = clean_start_y d ∧
    (warm_params sp d).topY = ctx_H d - 80 ∧
    warm_start_y d = ctx_H d - 90 ∧
    (warm_params sp d).topY ≠ warm_start_y d := by
  refine ⟨?_, rfl, rfl, rfl, rfl, ?_⟩
  · intro P i para y pn hb hc hnil
    rw [place_paragraph_eq_break hb hc]
    dsimp only
    unfold first_line_y
    rw [para_line_ys_append, para_line_ys_page_break, List.nil_append]
    have h := first_line_y_draw_wrapped_lines i (pn + 1)
      (P.size * P.lhf) (P.split para) P.topY hnil
    unfold first_line_y at h
    exact h
  · intro h
    simp only [warm_params, warm_start_y] at h
    linarith

/-- Witness for claim C6 as amended: a breaking paragraph in the warm
loop has its first line drawn exactly at the warm continuation offset. -/
theorem claim_C6_witness :
    first_line_y 1 (place_paragraph (warm_params split_whole d6) 1 "B" 200 1).2.2 =
      some ((warm_params split_whole d6).topY) :=
  (claim_C6_amended split_whole d6).1 (warm_params split_whole d6) 1 "B" 200 1
    (by decide)
    (by
      norm_num [warm_params, text_height, split_whole, margin_bottom, dget,
        d6, List.lookup])
    (by decide)

end ProductForge
